import Mathlib

/-!
A shallow embedding of the spec-driven RIFF/WAVE chunk parser in
src/bin/ffmpegwav.rs.  The byte source is a list of natural numbers
(each in 0..255) consumed strictly front to back; the HashMap output
is modelled as an association list whose head is the most recent
insertion (so lookup finds the last write, matching HashMap insert);
io errors are modelled by the error classification of the design
document (TruncatedInput for UnexpectedEof, BudgetExceeded for the
budget overrun InvalidData errors, UnconsumedChunkBytes for the
leftover-bytes InvalidData error, MalformedPayload for the odd sample
count and the unsupported-field-type errors, NotRiffWave for the final
structural check).  The chunk-walk loop is driven by a fuel parameter
that only bounds the number of iterations; parse_wav passes the
declared outer size as fuel, and walk_fuel_sufficient below proves the
OutOfFuel branch is never taken from parse_wav, so the embedding
behaves exactly like the unbounded source loop.
-/

namespace FfmpegWav

/-- Read exactly n bytes from the front of the source, like read_exact:
returns the bytes and the rest, or none when the source is exhausted. -/
def readExact : Nat → List Nat → Option (List Nat × List Nat)
  | 0, src => some ([], src)
  | _ + 1, [] => none
  | n + 1, b :: rest =>
    match readExact n rest with
    | none => none
    | some (buf, r) => some (b :: buf, r)

/-- Little-endian value of a byte list, generalizing u16 and u32 from_le_bytes. -/
def le_value (bs : List Nat) : Nat :=
  bs.foldr (fun b acc => b + 256 * acc) 0

/-- Signed 16-bit value of two little-endian bytes, as i16 from_le_bytes. -/
def i16_val (b0 b1 : Nat) : Int :=
  let v := b0 + 256 * b1
  if v < 32768 then (v : Int) else (v : Int) - 65536

/-- Decode consecutive little-endian i16 pairs, as chunks_exact(2) plus
i16 from_le_bytes in the Vec i16 arm of read_simple_field. -/
def to_i16_samples : List Nat → List Int
  | b0 :: b1 :: rest => i16_val b0 b1 :: to_i16_samples rest
  | _ => []

/-- ParsedValue, the tagged union of decoded field values. -/
inductive ParsedValue where
  | Bytes4 : List Nat → ParsedValue
  | U16 : Nat → ParsedValue
  | U32 : Nat → ParsedValue
  | Bytes : List Nat → ParsedValue
  | I16Vec : List Int → ParsedValue
deriving DecidableEq, Repr

/-- Classified parse failures.  OutOfFuel is an artifact of the fuel-bounded
loop below and is proved unreachable from parse_wav. -/
inductive ParseError where
  | TruncatedInput
  | BudgetExceeded
  | UnconsumedChunkBytes
  | MalformedPayload
  | NotRiffWave
  | OutOfFuel
deriving DecidableEq, Repr

/-- The output map: association list, most recent insertion first. -/
abbrev Store := List (String × ParsedValue)

/-- Insert models HashMap insert: the new binding shadows any older one. -/
def Store.insert (s : Store) (k : String) (v : ParsedValue) : Store :=
  (k, v) :: s

/-- Lookup finds the most recent binding for a key. -/
def Store.get : Store → String → Option ParsedValue
  | [], _ => none
  | (k2, v) :: rest, k => if k2 = k then some v else Store.get rest k

/-- A chunk spec: ordered list of (field name, field type string). -/
abbrev Spec := List (String × String)

def HEADER_SPEC : Spec :=
  [("riff_id", "[u8;4]"), ("riff_size", "u32"), ("wave_id", "[u8;4]")]

def FMT_CHUNK_SPEC : Spec :=
  [("chunk_id", "[u8;4]"), ("chunk_size", "u32"),
   ("audio_format", "u16"), ("num_channels", "u16"),
   ("sample_rate", "u32"), ("byte_rate", "u32"),
   ("block_align", "u16"), ("bits_per_sample", "u16"),
   ("extra_bytes", "Vec<u8>")]

def DATA_CHUNK_SPEC : Spec :=
  [("chunk_id", "[u8;4]"), ("chunk_size", "u32"), ("samples", "Vec<i16>")]

def LIST_ENTRY_SPEC : Spec :=
  [("tag_id", "[u8;4]"), ("text_size", "u32"), ("text", "Vec<String>")]

def LIST_CHUNK_SPEC : Spec :=
  [("chunk_id", "[u8;4]"), ("chunk_size", "u32"),
   ("list_type", "[u8;4]"), ("entries", "Vec<LIST_ENTRY_SPEC>")]

def UNKNOWN_CHUNK_SPEC : Spec :=
  [("chunk_id", "[u8;4]"), ("chunk_size", "u32"), ("raw_payload", "Vec<u8>")]

/-- The four-byte tags, as ASCII byte values. -/
def RIFF_TAG : List Nat := [82, 73, 70, 70]

def WAVE_TAG : List Nat := [87, 65, 86, 69]

def FMT_TAG : List Nat := [102, 109, 116, 32]

def DATA_TAG : List Nat := [100, 97, 116, 97]

def LIST_TAG : List Nat := [76, 73, 83, 84]

/-- read_simple_field from the source: decode one field of type ftype.
Field indices 0 and 1 are the virtual chunk_id and chunk_size fields,
returned at zero byte cost.  Returns (value, updated chunk budget,
remaining source).  The LIST match arm is commented out in the source
walker, but the field types of the list specs would hit the final
unsupported-field-type arm, exactly as in the source. -/
def read_simple_field (ftype : String) (src : List Nat) (ric : Nat)
    (cid : List Nat) (csz : Nat) (idx : Nat) :
    Except ParseError (ParsedValue × Nat × List Nat) :=
  if idx = 0 ∧ ftype = "[u8;4]" then
    .ok (.Bytes4 cid, ric, src)
  else if idx = 1 ∧ ftype = "u32" then
    .ok (.U32 csz, ric, src)
  else if ftype = "[u8;4]" then
    if ric < 4 then .error .TruncatedInput
    else
      match readExact 4 src with
      | none => .error .TruncatedInput
      | some (buf, rest) => .ok (.Bytes4 buf, ric - 4, rest)
  else if ftype = "u16" then
    if ric < 2 then .error .TruncatedInput
    else
      match readExact 2 src with
      | none => .error .TruncatedInput
      | some (buf, rest) => .ok (.U16 (le_value buf), ric - 2, rest)
  else if ftype = "u32" then
    if ric < 4 then .error .TruncatedInput
    else
      match readExact 4 src with
      | none => .error .TruncatedInput
      | some (buf, rest) => .ok (.U32 (le_value buf), ric - 4, rest)
  else if ftype = "Vec<u8>" then
    match readExact ric src with
    | none => .error .TruncatedInput
    | some (buf, rest) => .ok (.Bytes buf, 0, rest)
  else if ftype = "Vec<i16>" then
    match readExact ric src with
    | none => .error .TruncatedInput
    | some (buf, rest) =>
      if ric % 2 = 1 then .error .MalformedPayload
      else .ok (.I16Vec (to_i16_samples buf), 0, rest)
  else .error .MalformedPayload

/-- Per-tag dispatch of the walk loop (the match on current_chunk_id):
returns the key prefix for the store, the spec, and the updated
unknown-chunk counter.  The LIST arm is commented out in the source, so
a LIST tag falls through to the unknown fallback. -/
def specFor (cid : List Nat) (ui : Nat) : String × Spec × Nat :=
  if cid = RIFF_TAG then ("header", HEADER_SPEC, ui)
  else if cid = FMT_TAG then ("fmt", FMT_CHUNK_SPEC, ui)
  else if cid = DATA_TAG then ("data", DATA_CHUNK_SPEC, ui)
  else ("unknown" ++ Nat.repr ui, UNKNOWN_CHUNK_SPEC, ui + 1)

/-- The inner for loop of parse_wav: decode every spec field in order,
inserting each value under pfx.fname, deducting the bytes used by each
field from the chunk budget ric and, after the per-field overrun check,
from the global budget rg. -/
def decode_fields (spec : Spec) (idx : Nat) (src : List Nat) (store : Store)
    (pfx : String) (ric rg : Nat) (cid : List Nat) (csz : Nat) :
    Except ParseError (Store × List Nat × Nat × Nat) :=
  match spec with
  | [] => .ok (store, src, ric, rg)
  | (fname, ftype) :: restSpec =>
    match read_simple_field ftype src ric cid csz idx with
    | .error e => .error e
    | .ok (val, ric2, src2) =>
      if ric - ric2 > rg then .error .BudgetExceeded
      else decode_fields restSpec (idx + 1) src2
        (Store.insert store (pfx ++ "." ++ fname) val) pfx ric2
        (rg - (ric - ric2)) cid csz

/-- The end-of-chunk section of the walk loop: for every chunk whose
prefix is not header, first the leftover-bytes check on the chunk
budget, then for an odd declared size one pad byte is read and, if the
global budget is already zero, the pad overrun error is raised, else
the pad byte is charged to the global budget.  Returns the updated
global budget and source. -/
def post_chunk (pfx : String) (csz ric rg : Nat) (src : List Nat) :
    Except ParseError (Nat × List Nat) :=
  if pfx = "header" then .ok (rg, src)
  else if ric ≠ 0 then .error .UnconsumedChunkBytes
  else if csz % 2 = 1 then
    match readExact 1 src with
    | none => .error .TruncatedInput
    | some (_, rest) =>
      if rg = 0 then .error .BudgetExceeded
      else .ok (rg - 1, rest)
  else .ok (rg, src)

/-- The while loop of parse_wav.  State entering each iteration: the
current chunk id and declared size (already read), the global budget
rg, the store and the unknown counter.  The loop condition is rg > 0;
on exit the store, the unread rest of the source and the final value of
remaining_global are returned.  fuel only bounds the iteration count
and never runs out for the fuel parse_wav passes. -/
def walk : Nat → List Nat → Store → Nat → List Nat → Nat → Nat →
    Except ParseError (Store × List Nat × Nat)
  | 0, src, store, _, _, _, rg =>
    if rg = 0 then .ok (store, src, rg) else .error .OutOfFuel
  | fuel + 1, src, store, ui, cid, csz, rg =>
    if rg = 0 then .ok (store, src, rg)
    else
      match decode_fields (specFor cid ui).2.1 0 src store (specFor cid ui).1
          csz rg cid csz with
      | .error e => .error e
      | .ok (store2, src2, ric2, rg2) =>
        match post_chunk (specFor cid ui).1 csz ric2 rg2 src2 with
        | .error e => .error e
        | .ok (rg3, src3) =>
          if rg3 = 0 then .ok (store2, src3, rg3)
          else
            match readExact 4 src3 with
            | none => .error .TruncatedInput
            | some (ncid, src4) =>
              match readExact 4 src4 with
              | none => .error .TruncatedInput
              | some (nszb, src5) =>
                if rg3 < 8 then .error .BudgetExceeded
                else walk fuel src5 store2 (specFor cid ui).2.2 ncid
                  (le_value nszb) (rg3 - 8)

/-- The final structural check of parse_wav, lines 266 to 275 of the
source: the store must hold header.riff_id = RIFF and
header.wave_id = WAVE. -/
def riffwave_check (out : Store) : Bool :=
  decide (Store.get out "header.riff_id" = some (ParsedValue.Bytes4 RIFF_TAG) ∧
          Store.get out "header.wave_id" = some (ParsedValue.Bytes4 WAVE_TAG))

/-- The front half of parse_wav: read the outer 4-byte tag and 4-byte
little-endian size, initialize remaining_global to the declared size,
and run the chunk-walk loop. -/
def parse_wav_walk (input : List Nat) :
    Except ParseError (Store × List Nat × Nat) :=
  match readExact 4 input with
  | none => .error .TruncatedInput
  | some (cid, r1) =>
    match readExact 4 r1 with
    | none => .error .TruncatedInput
    | some (szb, r2) =>
      walk (le_value szb) r2 [] 0 cid (le_value szb) (le_value szb)

/-- parse_wav from the source: walk the chunks, then apply the final
RIFF/WAVE structural check once.  Besides the store it returns the
unread remainder of the byte source and the final remaining_global, so
that the byte-accounting invariants can be stated. -/
def parse_wav (input : List Nat) :
    Except ParseError (Store × List Nat × Nat) :=
  match parse_wav_walk input with
  | .error e => .error e
  | .ok (out, rest, rgf) =>
    if riffwave_check out then .ok (out, rest, rgf)
    else .error .NotRiffWave

/-- The synthetic 44-byte minimal WAV of the round-trip scenario:
12-byte RIFF/WAVE outer header declaring size 36, 24-byte canonical
fmt chunk (size 16, format 1, 1 channel, 44100 Hz, byte rate 88200,
block align 2, 16 bits), and an 8-byte data chunk header declaring
size 0. -/
def wav44 : List Nat :=
  RIFF_TAG ++ [36, 0, 0, 0] ++ WAVE_TAG ++
  FMT_TAG ++ [16, 0, 0, 0] ++
  [1, 0] ++ [1, 0] ++ [68, 172, 0, 0] ++ [136, 88, 1, 0] ++
  [2, 0] ++ [16, 0] ++
  DATA_TAG ++ [0, 0, 0, 0]

/-- A 12-byte input: outer RIFF header declaring size 4, sub-format WAVE. -/
def wav12 : List Nat := RIFF_TAG ++ [4, 0, 0, 0] ++ WAVE_TAG

/-- An input whose second chunk carries the tag RIFF with declared size
100, of which only 4 body bytes are consumed (by the wave_id field of
the container spec), followed by a junk-tagged chunk header that spends
the rest of the budget. -/
def wavC2 : List Nat :=
  RIFF_TAG ++ [24, 0, 0, 0] ++ WAVE_TAG ++
  RIFF_TAG ++ [100, 0, 0, 0] ++ WAVE_TAG ++
  [106, 117, 110, 107] ++ [0, 0, 0, 0]

/-- An input whose outer sub-format tag is JUNK, not WAVE, followed by
an inner RIFF-tagged chunk whose wave_id field reads WAVE. -/
def wavC4 : List Nat :=
  RIFF_TAG ++ [16, 0, 0, 0] ++ [74, 85, 78, 75] ++
  RIFF_TAG ++ [4, 0, 0, 0] ++ WAVE_TAG

/-- A RIFF/WAVE input with one data chunk declaring size 4 and body
bytes 01 00 02 00. -/
def wavData : List Nat :=
  RIFF_TAG ++ [16, 0, 0, 0] ++ WAVE_TAG ++
  DATA_TAG ++ [4, 0, 0, 0] ++ [1, 0, 2, 0]

/-- A RIFF/WAVE input with one LIST-tagged chunk declaring size 4 and
body bytes 1 2 3 4. -/
def wavList : List Nat :=
  RIFF_TAG ++ [16, 0, 0, 0] ++ WAVE_TAG ++
  LIST_TAG ++ [4, 0, 0, 0] ++ [1, 2, 3, 4]

/-- The store produced by parsing wav44 (most recent insertion first). -/
def store44 : Store :=
  [("fmt.extra_bytes", .Bytes []),
   ("fmt.bits_per_sample", .U16 16),
   ("fmt.block_align", .U16 2),
   ("fmt.byte_rate", .U32 88200),
   ("fmt.sample_rate", .U32 44100),
   ("fmt.num_channels", .U16 1),
   ("fmt.audio_format", .U16 1),
   ("fmt.chunk_size", .U32 16),
   ("fmt.chunk_id", .Bytes4 FMT_TAG),
   ("header.wave_id", .Bytes4 WAVE_TAG),
   ("header.riff_size", .U32 36),
   ("header.riff_id", .Bytes4 RIFF_TAG)]

/-- The store produced by parsing wav12. -/
def store12 : Store :=
  [("header.wave_id", .Bytes4 WAVE_TAG),
   ("header.riff_size", .U32 4),
   ("header.riff_id", .Bytes4 RIFF_TAG)]

/-- The store produced by parsing wavC2: the inner RIFF-tagged chunk was
dispatched to the container spec, so its virtual fields overwrote the
header keys (header.riff_size is now 100, the inner declared size). -/
def storeC2 : Store :=
  [("header.wave_id", .Bytes4 WAVE_TAG),
   ("header.riff_size", .U32 100),
   ("header.riff_id", .Bytes4 RIFF_TAG),
   ("header.wave_id", .Bytes4 WAVE_TAG),
   ("header.riff_size", .U32 24),
   ("header.riff_id", .Bytes4 RIFF_TAG)]

/-- The store produced by parsing wavC4: the inner RIFF-tagged chunk
overwrote header.wave_id, hiding the outer JUNK sub-format tag. -/
def storeC4 : Store :=
  [("header.wave_id", .Bytes4 WAVE_TAG),
   ("header.riff_size", .U32 4),
   ("header.riff_id", .Bytes4 RIFF_TAG),
   ("header.wave_id", .Bytes4 [74, 85, 78, 75]),
   ("header.riff_size", .U32 16),
   ("header.riff_id", .Bytes4 RIFF_TAG)]

/-- The store produced by parsing wavData. -/
def storeData : Store :=
  [("data.samples", .I16Vec [1, 2]),
   ("data.chunk_size", .U32 4),
   ("data.chunk_id", .Bytes4 DATA_TAG),
   ("header.wave_id", .Bytes4 WAVE_TAG),
   ("header.riff_size", .U32 16),
   ("header.riff_id", .Bytes4 RIFF_TAG)]

/-- The store produced by parsing wavList: the LIST chunk landed in the
unknown fallback under the ordinal prefix unknown0. -/
def storeList : Store :=
  [("unknown0.raw_payload", .Bytes [1, 2, 3, 4]),
   ("unknown0.chunk_size", .U32 4),
   ("unknown0.chunk_id", .Bytes4 LIST_TAG),
   ("header.wave_id", .Bytes4 WAVE_TAG),
   ("header.riff_size", .U32 16),
   ("header.riff_id", .Bytes4 RIFF_TAG)]

/-- Helper lemma: a successful readExact returns the first n bytes and
the rest, and accounts for exactly n source bytes. -/
theorem readExact_some : ∀ {n : Nat} {src buf rest : List Nat},
    readExact n src = some (buf, rest) →
    buf = src.take n ∧ rest = src.drop n ∧ src.length = n + rest.length := by
  intro n
  induction n with
  | zero =>
    intro src buf rest h
    unfold readExact at h
    simp only [Option.some.injEq, Prod.mk.injEq] at h
    obtain ⟨hb, hr⟩ := h
    subst hb; subst hr
    simp
  | succ n ih =>
    intro src buf rest h
    match src with
    | [] => exact Option.noConfusion h
    | b :: tl =>
      unfold readExact at h
      split at h
      · exact Option.noConfusion h
      · rename_i buf2 r heq
        simp only [Option.some.injEq, Prod.mk.injEq] at h
        obtain ⟨hb, hr⟩ := h
        subst hb; subst hr
        obtain ⟨h1, h2, h3⟩ := ih heq
        subst h1; subst h2
        refine ⟨rfl, rfl, ?_⟩
        simp only [List.length_cons]
        omega

/-- Helper lemma: readExact succeeds whenever the source holds at least
n bytes. -/
theorem readExact_of_le : ∀ {n : Nat} {src : List Nat}, n ≤ src.length →
    readExact n src = some (src.take n, src.drop n) := by
  intro n
  induction n with
  | zero => intro src _; rfl
  | succ n ih =>
    intro src h
    match src with
    | [] => simp at h
    | b :: tl =>
      have : readExact n tl = some (tl.take n, tl.drop n) := by
        apply ih
        simp only [List.length_cons] at h
        omega
      unfold readExact
      rw [this]
      rfl

/-- Helper lemma: a successful read_simple_field never increases the
chunk budget, and consumes exactly the budget decrement from the source. -/
theorem read_simple_field_ok {t : String} {src : List Nat} {ric : Nat}
    {cid : List Nat} {csz idx : Nat} {v : ParsedValue} {ric2 : Nat}
    {src2 : List Nat}
    (h : read_simple_field t src ric cid csz idx = .ok (v, ric2, src2)) :
    ric2 ≤ ric ∧ src.length + ric2 = ric + src2.length := by
  unfold read_simple_field at h
  split at h
  · simp only [Except.ok.injEq, Prod.mk.injEq] at h
    obtain ⟨-, hr, hs⟩ := h
    subst hr; subst hs
    omega
  split at h
  · simp only [Except.ok.injEq, Prod.mk.injEq] at h
    obtain ⟨-, hr, hs⟩ := h
    subst hr; subst hs
    omega
  split at h
  · -- fixed four bytes
    split at h
    · exact Except.noConfusion h
    · rename_i hge
      split at h
      · exact Except.noConfusion h
      · rename_i buf rest heq
        simp only [Except.ok.injEq, Prod.mk.injEq] at h
        obtain ⟨-, hr, hs⟩ := h
        subst hr; subst hs
        obtain ⟨-, -, hlen⟩ := readExact_some heq
        omega
  split at h
  · -- u16
    split at h
    · exact Except.noConfusion h
    · rename_i hge
      split at h
      · exact Except.noConfusion h
      · rename_i buf rest heq
        simp only [Except.ok.injEq, Prod.mk.injEq] at h
        obtain ⟨-, hr, hs⟩ := h
        subst hr; subst hs
        obtain ⟨-, -, hlen⟩ := readExact_some heq
        omega
  split at h
  · -- u32
    split at h
    · exact Except.noConfusion h
    · rename_i hge
      split at h
      · exact Except.noConfusion h
      · rename_i buf rest heq
        simp only [Except.ok.injEq, Prod.mk.injEq] at h
        obtain ⟨-, hr, hs⟩ := h
        subst hr; subst hs
        obtain ⟨-, -, hlen⟩ := readExact_some heq
        omega
  split at h
  · -- byte blob
    split at h
    · exact Except.noConfusion h
    · rename_i buf rest heq
      simp only [Except.ok.injEq, Prod.mk.injEq] at h
      obtain ⟨-, hr, hs⟩ := h
      subst hr; subst hs
      obtain ⟨-, -, hlen⟩ := readExact_some heq
      omega
  split at h
  · -- sample block
    split at h
    · exact Except.noConfusion h
    · rename_i buf rest heq
      split at h
      · exact Except.noConfusion h
      · simp only [Except.ok.injEq, Prod.mk.injEq] at h
        obtain ⟨-, hr, hs⟩ := h
        subst hr; subst hs
        obtain ⟨-, -, hlen⟩ := readExact_some heq
        omega
  · exact Except.noConfusion h

/-- Helper lemma: a successful decode_fields pass never increases the
global budget, and consumes exactly the global-budget decrement from
the source. -/
theorem decode_fields_ok : ∀ {spec : Spec} {idx : Nat} {src : List Nat}
    {store : Store} {pfx : String} {ric rg : Nat} {cid : List Nat} {csz : Nat}
    {st2 : Store} {src2 : List Nat} {ric2 rg2 : Nat},
    decode_fields spec idx src store pfx ric rg cid csz =
      .ok (st2, src2, ric2, rg2) →
    rg2 ≤ rg ∧ src.length + rg2 = rg + src2.length := by
  intro spec
  induction spec with
  | nil =>
    intro idx src store pfx ric rg cid csz st2 src2 ric2 rg2 h
    unfold decode_fields at h
    simp only [Except.ok.injEq, Prod.mk.injEq] at h
    obtain ⟨-, hs, -, hr⟩ := h
    subst hs; subst hr
    omega
  | cons fld restSpec ih =>
    intro idx src store pfx ric rg cid csz st2 src2 ric2 rg2 h
    obtain ⟨fname, ftype⟩ := fld
    unfold decode_fields at h
    split at h
    · exact Except.noConfusion h
    · rename_i val ric3 src3 hrsf
      split at h
      · exact Except.noConfusion h
      · rename_i hused
        have h1 := read_simple_field_ok hrsf
        have h2 := ih h
        omega

/-- Helper lemma: a successful post_chunk never increases the global
budget, and consumes exactly the global-budget decrement from the source. -/
theorem post_chunk_ok {pfx : String} {csz ric rg : Nat} {src : List Nat}
    {rg2 : Nat} {src2 : List Nat}
    (h : post_chunk pfx csz ric rg src = .ok (rg2, src2)) :
    rg2 ≤ rg ∧ src.length + rg2 = rg + src2.length := by
  unfold post_chunk at h
  split at h
  · simp only [Except.ok.injEq, Prod.mk.injEq] at h
    obtain ⟨hr, hs⟩ := h
    subst hr; subst hs
    omega
  split at h
  · exact Except.noConfusion h
  split at h
  · split at h
    · exact Except.noConfusion h
    · rename_i pad rest heq
      split at h
      · exact Except.noConfusion h
      · rename_i hrg
        simp only [Except.ok.injEq, Prod.mk.injEq] at h
        obtain ⟨hr, hs⟩ := h
        subst hr; subst hs
        obtain ⟨-, -, hlen⟩ := readExact_some heq
        omega
  · simp only [Except.ok.injEq, Prod.mk.injEq] at h
    obtain ⟨hr, hs⟩ := h
    subst hr; subst hs
    omega

/-- Helper lemma: a successful walk ends with remaining_global equal to
zero and consumes exactly the initial global budget from the source. -/
theorem walk_ok : ∀ {fuel : Nat} {src : List Nat} {store : Store} {ui : Nat}
    {cid : List Nat} {csz rg : Nat} {st : Store} {rest : List Nat} {rgf : Nat},
    walk fuel src store ui cid csz rg = .ok (st, rest, rgf) →
    rgf = 0 ∧ src.length = rg + rest.length := by
  intro fuel
  induction fuel with
  | zero =>
    intro src store ui cid csz rg st rest rgf h
    unfold walk at h
    split at h
    · rename_i hrg
      simp only [Except.ok.injEq, Prod.mk.injEq] at h
      obtain ⟨-, hrest, hrgf⟩ := h
      subst hrest; subst hrgf
      omega
    · exact Except.noConfusion h
  | succ fuel ih =>
    intro src store ui cid csz rg st rest rgf h
    unfold walk at h
    split at h
    · rename_i hrg
      simp only [Except.ok.injEq, Prod.mk.injEq] at h
      obtain ⟨-, hrest, hrgf⟩ := h
      subst hrest; subst hrgf
      omega
    · split at h
      · exact Except.noConfusion h
      · rename_i store2 src2 ric2 rg2 hdf
        split at h
        · exact Except.noConfusion h
        · rename_i rg3 src3 hpc
          split at h
          · rename_i hrg3
            simp only [Except.ok.injEq, Prod.mk.injEq] at h
            obtain ⟨-, hrest, hrgf⟩ := h
            subst hrest; subst hrgf
            have h1 := decode_fields_ok hdf
            have h2 := post_chunk_ok hpc
            omega
          · split at h
            · exact Except.noConfusion h
            · rename_i ncid src4 hre1
              split at h
              · exact Except.noConfusion h
              · rename_i nszb src5 hre2
                split at h
                · exact Except.noConfusion h
                · rename_i hge
                  have h1 := decode_fields_ok hdf
                  have h2 := post_chunk_ok hpc
                  have h3 := (readExact_some hre1).2.2
                  have h4 := (readExact_some hre2).2.2
                  have h5 := ih h
                  omega

/-- Helper lemma: read_simple_field never raises the fuel artifact error. -/
theorem read_simple_field_ne_fuel {t : String} {src : List Nat} {ric : Nat}
    {cid : List Nat} {csz idx : Nat} :
    read_simple_field t src ric cid csz idx ≠ .error .OutOfFuel := by
  intro h
  unfold read_simple_field at h
  repeat' split at h
  all_goals simp_all

/-- Helper lemma: decode_fields never raises the fuel artifact error. -/
theorem decode_fields_ne_fuel : ∀ {spec : Spec} {idx : Nat} {src : List Nat}
    {store : Store} {pfx : String} {ric rg : Nat} {cid : List Nat} {csz : Nat},
    decode_fields spec idx src store pfx ric rg cid csz ≠
      .error .OutOfFuel := by
  intro spec
  induction spec with
  | nil =>
    intro idx src store pfx ric rg cid csz h
    exact Except.noConfusion h
  | cons fld restSpec ih =>
    intro idx src store pfx ric rg cid csz h
    obtain ⟨fname, ftype⟩ := fld
    unfold decode_fields at h
    split at h
    · rename_i e hrsf
      simp only [Except.error.injEq] at h
      subst h
      exact read_simple_field_ne_fuel hrsf
    · rename_i val ric3 src3 hrsf
      split at h
      · simp at h
      · exact ih h

/-- Helper lemma: post_chunk never raises the fuel artifact error. -/
theorem post_chunk_ne_fuel {pfx : String} {csz ric rg : Nat} {src : List Nat} :
    post_chunk pfx csz ric rg src ≠ .error .OutOfFuel := by
  intro h
  unfold post_chunk at h
  repeat' split at h
  all_goals simp_all

/-- Helper lemma: with fuel at least the global budget, the walk never
runs out of fuel, so the fuel-bounded loop agrees with the unbounded
source loop. -/
theorem walk_fuel_sufficient : ∀ {fuel : Nat} {src : List Nat} {store : Store}
    {ui : Nat} {cid : List Nat} {csz rg : Nat}, rg ≤ fuel →
    walk fuel src store ui cid csz rg ≠ .error .OutOfFuel := by
  intro fuel
  induction fuel with
  | zero =>
    intro src store ui cid csz rg hle h
    unfold walk at h
    split at h
    · exact Except.noConfusion h
    · omega
  | succ fuel ih =>
    intro src store ui cid csz rg hle h
    unfold walk at h
    split at h
    · exact Except.noConfusion h
    · split at h
      · rename_i e hdf
        simp only [Except.error.injEq] at h
        subst h
        exact decode_fields_ne_fuel hdf
      · rename_i store2 src2 ric2 rg2 hdf
        split at h
        · rename_i e hpc
          simp only [Except.error.injEq] at h
          subst h
          exact post_chunk_ne_fuel hpc
        · rename_i rg3 src3 hpc
          split at h
          · exact Except.noConfusion h
          · split at h
            · simp at h
            · rename_i ncid src4 hre1
              split at h
              · simp at h
              · rename_i nszb src5 hre2
                split at h
                · simp at h
                · rename_i hge
                  have h1 := decode_fields_ok hdf
                  have h2 := post_chunk_ok hpc
                  exact ih (by omega) h

/-- Helper theorem: parse_wav never raises the fuel artifact error, for
any input: the fuel parse_wav passes to the walk is always sufficient.
Thus the embedding matches the unbounded loop of the source. -/
theorem parse_wav_ne_fuel (input : List Nat) :
    parse_wav input ≠ .error .OutOfFuel := by
  intro h
  unfold parse_wav at h
  split at h
  · rename_i e hpw
    simp only [Except.error.injEq] at h
    subst h
    unfold parse_wav_walk at hpw
    split at hpw
    · simp at hpw
    · rename_i cid r1 hre1
      split at hpw
      · simp at hpw
      · rename_i szb r2 hre2
        exact walk_fuel_sufficient (Nat.le_refl _) hpw
  · split at h
    · exact Except.noConfusion h
    · simp at h

/-- C1 counterexample: the synthetic 44-byte minimal WAV parses
successfully, but the resulting store holds no data.samples key at all,
contradicting the claim that it maps data.samples to the empty sample
list.  The final data chunk declares size 0, so its 8-byte header
brings remaining_global to exactly 0 and the loop condition stops the
walk before the data chunk fields (including the virtual ones) are
decoded. -/
theorem c1_counterexample :
    parse_wav wav44 = .ok (store44, [], 0) ∧
    Store.get store44 "data.samples" = none :=
  ⟨rfl, rfl⟩

/-- C1 amended: parsing the synthetic 44-byte minimal WAV succeeds and
the store holds header.riff_id = RIFF, header.wave_id = WAVE,
fmt.sample_rate = 44100, fmt.num_channels = 1 and
fmt.bits_per_sample = 16, but no data.samples key: the zero-size
trailing data chunk header exhausts the global budget, so the data
chunk body spec is never decoded. -/
theorem c1_amended :
    parse_wav wav44 = .ok (store44, [], 0) ∧
    Store.get store44 "header.riff_id" = some (.Bytes4 RIFF_TAG) ∧
    Store.get store44 "header.wave_id" = some (.Bytes4 WAVE_TAG) ∧
    Store.get store44 "fmt.sample_rate" = some (.U32 44100) ∧
    Store.get store44 "fmt.num_channels" = some (.U16 1) ∧
    Store.get store44 "fmt.bits_per_sample" = some (.U16 16) ∧
    Store.get store44 "data.samples" = none :=
  ⟨rfl, rfl, rfl, rfl, rfl, rfl, rfl⟩

/-- C2 counterexample: in wavC2 the second chunk read by the walk
carries the tag RIFF with declared size 100, of which only 4 body bytes
are consumed, leaving 96 unconsumed chunk-budget bytes.  The parse
nevertheless succeeds, and the store shows the second chunk was
dispatched to the container (header) spec: its declared size 100 sits
under header.riff_size and no unknown-prefixed key exists.  This
contradicts the claim that a RIFF tag is dispatched to the container
spec only on the very first chunk and that later RIFF chunks are
subject to the leftover-bytes check. -/
theorem c2_counterexample :
    parse_wav wavC2 = .ok (storeC2, [], 0) ∧
    Store.get storeC2 "header.riff_size" = some (.U32 100) ∧
    Store.get storeC2 "unknown0.chunk_id" = none ∧
    Store.get storeC2 "unknown0.raw_payload" = none :=
  ⟨rfl, rfl, rfl, rfl⟩

/-- C2 amended: the walk dispatches on the chunk tag alone, on every
iteration: the container (header) spec is selected for any chunk whose
tag is RIFF, not just the first, and such a chunk is therefore exempt
from the leftover-bytes check and padding (as the successful wavC2
parse shows). -/
theorem c2_amended :
    (∀ ui : Nat, specFor RIFF_TAG ui = ("header", HEADER_SPEC, ui)) ∧
    parse_wav wavC2 = .ok (storeC2, [], 0) :=
  ⟨fun _ => rfl, rfl⟩

/-- C3: for every input on which the parse succeeds, the final
remaining_global is exactly 0 and the number of source bytes consumed
(input length minus unread rest) equals the declared outer container
size plus 8. -/
theorem c3_budget_exact (input : List Nat) (st : Store) (rest : List Nat)
    (rgf : Nat) (h : parse_wav input = .ok (st, rest, rgf)) :
    rgf = 0 ∧
    input.length = le_value ((input.drop 4).take 4) + 8 + rest.length := by
  unfold parse_wav at h
  split at h
  · exact Except.noConfusion h
  · rename_i out rest2 rgf2 hpw
    split at h
    · simp only [Except.ok.injEq, Prod.mk.injEq] at h
      obtain ⟨hout, hrest, hrgf⟩ := h
      subst hrest; subst hrgf
      unfold parse_wav_walk at hpw
      split at hpw
      · exact Except.noConfusion hpw
      · rename_i cid r1 hre1
        split at hpw
        · exact Except.noConfusion hpw
        · rename_i szb r2 hre2
          have hw := walk_ok hpw
          obtain ⟨hb1, hd1, hl1⟩ := readExact_some hre1
          obtain ⟨hb2, hd2, hl2⟩ := readExact_some hre2
          rw [← hd1, ← hb2]
          omega
    · exact Except.noConfusion h

/-- C3 witness: the invariant instantiated at the 12-byte input wav12,
whose declared outer size is 4 and which the parser consumes entirely. -/
theorem c3_budget_exact_witness :
    0 = 0 ∧
    wav12.length = le_value ((wav12.drop 4).take 4) + 8 +
      ([] : List Nat).length :=
  c3_budget_exact wav12 store12 [] 0 rfl

/-- C4 counterexample: wavC4 declares the sub-format tag JUNK (bytes 8
to 11), not WAVE, and every chunk inside decodes successfully, yet the
parse succeeds instead of failing with NotRiffWave: the final check
reads the store, and an inner RIFF-tagged chunk overwrote
header.wave_id with WAVE. -/
theorem c4_counterexample :
    (wavC4.drop 8).take 4 = [74, 85, 78, 75] ∧
    ([74, 85, 78, 75] : List Nat) ≠ WAVE_TAG ∧
    parse_wav wavC4 = .ok (storeC4, [], 0) :=
  ⟨rfl, by decide, rfl⟩

/-- C4 amended: after the walk completes, a single final validation
inspects the Parsed Field Store once (not per chunk): when the store
satisfies the RIFF/WAVE check the walk result is returned unchanged,
and otherwise the parse fails with NotRiffWave.  Because the check
reads the store rather than the raw container bytes, a later
RIFF-tagged chunk can overwrite the header entries, so a container
whose own sub-format tag is not WAVE does not always fail. -/
theorem c4_amended (input : List Nat) (out : Store) (rest : List Nat)
    (rgf : Nat) (h : parse_wav_walk input = .ok (out, rest, rgf)) :
    (riffwave_check out = true → parse_wav input = .ok (out, rest, rgf)) ∧
    (riffwave_check out = false → parse_wav input = .error .NotRiffWave) := by
  unfold parse_wav
  rw [h]
  constructor
  · intro hc
    simp [hc]
  · intro hc
    simp [hc]

/-- C4 witness: the amended final-check behavior instantiated at wav12,
whose walk yields store12 passing the RIFF/WAVE check. -/
theorem c4_amended_witness :
    (riffwave_check store12 = true → parse_wav wav12 = .ok (store12, [], 0)) ∧
    (riffwave_check store12 = false →
      parse_wav wav12 = .error .NotRiffWave) :=
  c4_amended wav12 store12 [] 0 rfl

/-- C5: for a chunk whose prefix is not header (every chunk not
dispatched to the container spec), a nonzero chunk budget left after
all spec fields decoded makes the parse fail with UnconsumedChunkBytes,
while a chunk dispatched to the header spec is exempt from this check
(and from padding): post_chunk passes it through unchanged. -/
theorem c5_leftover_check (pfx : String) (csz ric rg : Nat) (src : List Nat)
    (hp : pfx ≠ "header") (hric : ric ≠ 0) :
    post_chunk pfx csz ric rg src = .error .UnconsumedChunkBytes ∧
    (∀ csz2 ric2 rg2 : Nat, ∀ src2 : List Nat,
      post_chunk "header" csz2 ric2 rg2 src2 = .ok (rg2, src2)) := by
  constructor
  · unfold post_chunk
    rw [if_neg hp, if_pos hric]
  · intro csz2 ric2 rg2 src2
    rfl

/-- C5 witness: the leftover-bytes check fired at a concrete
non-header chunk with 5 unconsumed bytes. -/
theorem c5_leftover_check_witness :
    post_chunk "data" 6 5 7 [] = .error .UnconsumedChunkBytes :=
  (c5_leftover_check "data" 6 5 7 [] (by decide) (by decide)).1

/-- C6: for a non-container chunk with odd declared size, exactly one
pad byte is consumed after the body and charged against the global
budget, failing with BudgetExceeded when no global budget remains; a
chunk with even declared size consumes no pad byte. -/
theorem c6_padding (pfx : String) (csz rg b : Nat) (rest src : List Nat)
    (hp : pfx ≠ "header") :
    (csz % 2 = 1 →
      (rg = 0 → post_chunk pfx csz 0 rg (b :: rest) = .error .BudgetExceeded) ∧
      (rg ≠ 0 → post_chunk pfx csz 0 rg (b :: rest) = .ok (rg - 1, rest))) ∧
    (csz % 2 = 0 → post_chunk pfx csz 0 rg src = .ok (rg, src)) := by
  have hre : readExact 1 (b :: rest) = some ([b], rest) := rfl
  constructor
  · intro hodd
    constructor
    · intro hrg0
      unfold post_chunk
      rw [if_neg hp, if_neg (by simp), if_pos hodd, hre]
      simp [hrg0]
    · intro hrg
      unfold post_chunk
      rw [if_neg hp, if_neg (by simp), if_pos hodd, hre]
      simp [hrg]
  · intro heven
    unfold post_chunk
    rw [if_neg hp, if_neg (by simp), if_neg (by omega)]

/-- C6 witness: a concrete odd-size non-header chunk consumes one pad
byte, charging the global budget from 5 down to 4. -/
theorem c6_padding_witness :
    post_chunk "data" 3 0 5 (9 :: []) = .ok (5 - 1, []) :=
  ((c6_padding "data" 3 5 9 [] [] (by decide)).1 (by decide)).2 (by decide)

/-- C7: a SampleBlock field (Vec i16, at a non-virtual field index)
consumes the entire remaining chunk budget, leaving it at 0, decoding
consecutive little-endian signed 16-bit values, and fails with
MalformedPayload whenever the consumed byte count is odd; concretely, a
data chunk declaring size 4 with body bytes 01 00 02 00 yields
data.samples = [1, 2]. -/
theorem c7_sample_block (src : List Nat) (ric : Nat) (cid : List Nat)
    (csz idx : Nat) (hidx : 2 ≤ idx) (hlen : ric ≤ src.length) :
    (ric % 2 = 1 →
      read_simple_field "Vec<i16>" src ric cid csz idx =
        .error .MalformedPayload) ∧
    (ric % 2 = 0 →
      read_simple_field "Vec<i16>" src ric cid csz idx =
        .ok (.I16Vec (to_i16_samples (src.take ric)), 0, src.drop ric)) ∧
    parse_wav wavData = .ok (storeData, [], 0) ∧
    Store.get storeData "data.samples" = some (.I16Vec [1, 2]) := by
  have e1 : ¬(idx = 0 ∧ ("Vec<i16>" : String) = "[u8;4]") := by
    rintro ⟨h1, -⟩; omega
  have e2 : ¬(idx = 1 ∧ ("Vec<i16>" : String) = "u32") := by
    rintro ⟨h1, -⟩; omega
  have e3 : ("Vec<i16>" : String) ≠ "[u8;4]" := by decide
  have e4 : ("Vec<i16>" : String) ≠ "u16" := by decide
  have e5 : ("Vec<i16>" : String) ≠ "u32" := by decide
  have e6 : ("Vec<i16>" : String) ≠ "Vec<u8>" := by decide
  have hre := readExact_of_le hlen
  refine ⟨?_, ?_, rfl, rfl⟩
  · intro hodd
    unfold read_simple_field
    rw [if_neg e1, if_neg e2, if_neg e3, if_neg e4, if_neg e5, if_neg e6,
      if_pos rfl, hre]
    simp [hodd]
  · intro heven
    unfold read_simple_field
    rw [if_neg e1, if_neg e2, if_neg e3, if_neg e4, if_neg e5, if_neg e6,
      if_pos rfl, hre]
    simp [heven]

/-- C7 witness: the SampleBlock decode instantiated at the body bytes
01 00 02 00 with chunk budget 4, yielding samples [1, 2] and budget 0. -/
theorem c7_sample_block_witness :
    read_simple_field "Vec<i16>" [1, 0, 2, 0] 4 DATA_TAG 4 2 =
      .ok (.I16Vec (to_i16_samples ([1, 0, 2, 0].take 4)), 0,
        [1, 0, 2, 0].drop 4) :=
  (c7_sample_block [1, 0, 2, 0] 4 DATA_TAG 4 2 (by decide)
    (by decide)).2.1 (by decide)

/-- C8: for each fixed-size field type at a non-virtual field index,
a chunk budget smaller than the required byte count (4 for the
four-byte tag type, 2 for u16, 4 for u32) makes the decoder fail with
TruncatedInput before touching the source, so nothing is consumed. -/
theorem c8_truncated_budget (src : List Nat) (ric : Nat) (cid : List Nat)
    (csz idx : Nat) (hidx : 2 ≤ idx) :
    (ric < 4 →
      read_simple_field "[u8;4]" src ric cid csz idx =
        .error .TruncatedInput) ∧
    (ric < 2 →
      read_simple_field "u16" src ric cid csz idx = .error .TruncatedInput) ∧
    (ric < 4 →
      read_simple_field "u32" src ric cid csz idx =
        .error .TruncatedInput) := by
  refine ⟨?_, ?_, ?_⟩
  · intro hlt
    have e1 : ¬(idx = 0 ∧ ("[u8;4]" : String) = "[u8;4]") := by
      rintro ⟨h1, -⟩; omega
    have e2 : ¬(idx = 1 ∧ ("[u8;4]" : String) = "u32") := by
      rintro ⟨-, h2⟩; exact absurd h2 (by decide)
    unfold read_simple_field
    rw [if_neg e1, if_neg e2, if_pos rfl, if_pos hlt]
  · intro hlt
    have e1 : ¬(idx = 0 ∧ ("u16" : String) = "[u8;4]") := by
      rintro ⟨-, h2⟩; exact absurd h2 (by decide)
    have e2 : ¬(idx = 1 ∧ ("u16" : String) = "u32") := by
      rintro ⟨-, h2⟩; exact absurd h2 (by decide)
    have e3 : ("u16" : String) ≠ "[u8;4]" := by decide
    unfold read_simple_field
    rw [if_neg e1, if_neg e2, if_neg e3, if_pos rfl, if_pos hlt]
  · intro hlt
    have e1 : ¬(idx = 0 ∧ ("u32" : String) = "[u8;4]") := by
      rintro ⟨-, h2⟩; exact absurd h2 (by decide)
    have e2 : ¬(idx = 1 ∧ ("u32" : String) = "u32") := by
      rintro ⟨h1, -⟩; omega
    have e3 : ("u32" : String) ≠ "[u8;4]" := by decide
    have e4 : ("u32" : String) ≠ "u16" := by decide
    unfold read_simple_field
    rw [if_neg e1, if_neg e2, if_neg e3, if_neg e4, if_pos rfl, if_pos hlt]

/-- C8 witness: the u16 decoder with chunk budget 1 fails with
TruncatedInput. -/
theorem c8_truncated_budget_witness :
    read_simple_field "u16" [] 1 RIFF_TAG 0 2 = .error .TruncatedInput :=
  (c8_truncated_budget [] 1 RIFF_TAG 0 2 (by decide)).2.1 (by decide)

/-- C9: a LIST-tagged chunk is routed to the unknown-chunk fallback
under the ordinal prefix (unknown0, unknown1, and so on), the walk
dispatch never selects the LIST entry-walking spec for any tag, and
concretely the LIST chunk of wavList lands in the store as a single raw
byte blob under unknown0.raw_payload. -/
theorem c9_list_fallback :
    (∀ ui : Nat, specFor LIST_TAG ui =
      ("unknown" ++ Nat.repr ui, UNKNOWN_CHUNK_SPEC, ui + 1)) ∧
    (∀ cid : List Nat, ∀ ui : Nat, (specFor cid ui).2.1 ≠ LIST_CHUNK_SPEC) ∧
    parse_wav wavList = .ok (storeList, [], 0) ∧
    Store.get storeList "unknown0.raw_payload" = some (.Bytes [1, 2, 3, 4]) := by
  refine ⟨fun _ => rfl, ?_, rfl, rfl⟩
  intro cid ui
  unfold specFor
  repeat' split
  all_goals simp [HEADER_SPEC, FMT_CHUNK_SPEC, DATA_CHUNK_SPEC,
    UNKNOWN_CHUNK_SPEC, LIST_CHUNK_SPEC]

/-- C10: any input whose outer header declares a container size of 0
fails with NotRiffWave, whatever the leading tag and whatever follows:
the walk loop body never runs, so the store stays empty and the final
structural check cannot find the header keys. -/
theorem c10_zero_size (t0 t1 t2 t3 : Nat) (rest : List Nat) :
    parse_wav ([t0, t1, t2, t3] ++ [0, 0, 0, 0] ++ rest) =
      .error .NotRiffWave :=
  rfl

end FfmpegWav
